import Mathlib

/-!
Verification of the core game-state update loop of a two-paddle ball game
(`src/pong.js`): ball kinematics, wall and paddle collision, scoring, the
paddle controller, and the tempo-to-speed mapper.

The kinematics is embedded over the rationals (all source operations there
are exact field operations and comparisons).  The tempo-to-speed mapper uses
a real power with exponent 0.7 (`Math.pow(normalizedBPM, 0.7)`), so it is
embedded over the reals with `Real.rpow`.

Randomness (`Math.random()`) is modelled by explicit parameters `r1 r2`
ranging over the draw interval; the court dimensions (`canvas.width`,
`canvas.height`, fixed by the page to 800 by 600) are parameters `w h`.
-/

namespace Pong

/-- `const paddleHeight = 100;` -/
def paddleHeight : ℚ := 100

/-- `const paddleWidth = 10;` -/
def paddleWidth : ℚ := 10

/-- The ball record of `pong.js`: position, radius, scalar speed, velocity. -/
structure Ball where
  x : ℚ
  y : ℚ
  radius : ℚ
  speed : ℚ
  dx : ℚ
  dy : ℚ
  deriving DecidableEq

/-- A paddle record of `pong.js` (`player` / `computer`): top-edge y and score. -/
structure Paddle where
  y : ℚ
  score : ℕ
  deriving DecidableEq

/-- The mutable game state touched by the per-frame update. -/
structure GameState where
  ball : Ball
  player : Paddle
  computer : Paddle
  deriving DecidableEq

/-- The wall-reflection step of `moveBall`: the new `dy` given
post-integration center `y`.
`if (ball.y + ball.radius > canvas.height || ball.y - ball.radius < 0) ball.dy *= -1;` -/
def wallDy (h y radius dy : ℚ) : ℚ :=
  if y + radius > h ∨ y - radius < 0 then -dy else dy

/-- The paddle-collision step of `moveBall`: the new `dx` given
post-integration center `(x, y)`.  When `dx < 0` the left (player) paddle is
tested, otherwise the right (computer) paddle:
`if (ball.dx < 0) { if (ball.x - ball.radius < paddleWidth && ball.y > player.y && ball.y < player.y + paddleHeight) ball.dx *= -1; } else { ... }` -/
def paddleDx (w x y radius dx playerY computerY : ℚ) : ℚ :=
  if dx < 0 then
    if x - radius < paddleWidth ∧ playerY < y ∧ y < playerY + paddleHeight then -dx else dx
  else
    if x + radius > w - paddleWidth ∧ computerY < y ∧ y < computerY + paddleHeight then -dx
    else dx

/-- `resetBall()`: recenter the ball and redraw its direction from the two
`Math.random()` draws `r1, r2 ∈ [0,1)`:
`ball.dx = ball.speed * (Math.random() > 0.5 ? 1 : -1);`
`ball.dy = ball.speed * (Math.random() * 2 - 1);` -/
def resetBall (w h r1 r2 : ℚ) (b : Ball) : Ball :=
  { b with
    x := w / 2
    y := h / 2
    dx := b.speed * (if r1 > 1/2 then 1 else -1)
    dy := b.speed * (r2 * 2 - 1) }

/-- `moveBall()`: integrate position, reflect off the horizontal walls,
resolve the direction-gated paddle collision, then check scoring
(`if (ball.x + ball.radius > canvas.width) { player.score++; resetBall(); }
else if (ball.x - ball.radius < 0) { computer.score++; resetBall(); }`). -/
def moveBall (w h : ℚ) (gs : GameState) (r1 r2 : ℚ) : GameState :=
  let b := gs.ball
  let b1 : Ball :=
    { b with
      x := b.x + b.dx
      y := b.y + b.dy
      dy := wallDy h (b.y + b.dy) b.radius b.dy
      dx := paddleDx w (b.x + b.dx) (b.y + b.dy) b.radius b.dx gs.player.y gs.computer.y }
  if b.x + b.dx + b.radius > w then
    { gs with
      ball := resetBall w h r1 r2 b1
      player := { gs.player with score := gs.player.score + 1 } }
  else if b.x + b.dx - b.radius < 0 then
    { gs with
      ball := resetBall w h r1 r2 b1
      computer := { gs.computer with score := gs.computer.score + 1 } }
  else
    { gs with ball := b1 }

/-- `movePaddles()`: the human paddle moves 7 px per held key, guarded only by
the current position being strictly inside the relevant bound; the
rule-controlled paddle chases the ball center with step 5 and dead zone 35,
with no bounds guard at all. -/
def movePaddles (h : ℚ) (gs : GameState) (up down : Bool) : GameState :=
  let y1 := if up ∧ gs.player.y > 0 then gs.player.y - 7 else gs.player.y
  let y2 := if down ∧ y1 + paddleHeight < h then y1 + 7 else y1
  let c := gs.computer.y
  let c1 :=
    if c + paddleHeight / 2 < gs.ball.y - 35 then c + 5
    else if c + paddleHeight / 2 > gs.ball.y + 35 then c - 5
    else c
  { gs with
    player := { gs.player with y := y2 }
    computer := { gs.computer with y := c1 } }

/-- The input-validation step of `updateBallSpeed()`:
`if (!currentBPM || currentBPM < 40) currentBPM = 120;`
(a JavaScript number is falsy exactly when it is zero, over the reals). -/
noncomputable def validBPM (bpm : ℝ) : ℝ :=
  if bpm = 0 ∨ bpm < 40 then 120 else bpm

/-- The multiplier computed by `updateBallSpeed()` from an (already
validated) BPM value:
`const normalizedBPM = currentBPM / 120;`
`const speedMultiplier = Math.max(0.5, Math.min(2, Math.pow(normalizedBPM, 0.7)));` -/
noncomputable def speedMultiplier (bpm : ℝ) : ℝ :=
  max 0.5 (min 2 ((bpm / 120) ^ (0.7 : ℝ)))

/-- `const baseBallSpeed = 5;` -/
noncomputable def baseBallSpeed : ℝ := 5

/-- The ball record as seen by the tempo-to-speed mapper, over the reals
(the mapper computes a real power, so its arithmetic is not rational). -/
structure BallR where
  x : ℝ
  y : ℝ
  radius : ℝ
  speed : ℝ
  dx : ℝ
  dy : ℝ

/-- `updateBallSpeed()`: validate the global `currentBPM` (the validated
value is written back, hence the first component of the result), recompute
`ball.speed`, and reapply the current direction signs:
`ball.speed = baseBallSpeed * speedMultiplier;`
`ball.dx = ball.speed * Math.sign(ball.dx);`
`ball.dy = ball.speed * Math.sign(ball.dy);` -/
noncomputable def updateBallSpeed (bpm : ℝ) (b : BallR) : ℝ × BallR :=
  let bpm1 := validBPM bpm
  let s := baseBallSpeed * speedMultiplier bpm1
  (bpm1, { b with speed := s, dx := s * Real.sign b.dx, dy := s * Real.sign b.dy })

/-- The tempo-to-speed map with the source's `baseBallSpeed` constant
generalized to a parameter `base`: the scalar speed `updateBallSpeed()`
would assign given tempo estimate `bpm` and base speed `base`. -/
noncomputable def mapBPM (bpm base : ℝ) : ℝ :=
  base * speedMultiplier (validBPM bpm)

/-- C1: paddle collision is direction-gated and uses a strict center band.
When the ball moves left (`dx < 0`) only the left paddle is tested (the
result does not depend on the right paddle's position), and `dx` reverses
sign exactly when `x - radius < paddleWidth` and the center `y` lies
strictly between `playerY` and `playerY + paddleHeight`; symmetrically for
the right paddle when `dx > 0`; a ball whose center is exactly at a paddle
edge does not register a hit; the magnitude of `dx` is always unchanged. -/
theorem C1_paddle_collision (w x y radius dx playerY computerY : ℚ) :
    (dx < 0 →
      ((paddleDx w x y radius dx playerY computerY = -dx ↔
         x - radius < paddleWidth ∧ playerY < y ∧ y < playerY + paddleHeight) ∧
       (∀ computerY', paddleDx w x y radius dx playerY computerY' =
         paddleDx w x y radius dx playerY computerY) ∧
       ((y = playerY ∨ y = playerY + paddleHeight) →
         paddleDx w x y radius dx playerY computerY = dx))) ∧
    (0 < dx →
      ((paddleDx w x y radius dx playerY computerY = -dx ↔
         x + radius > w - paddleWidth ∧ computerY < y ∧ y < computerY + paddleHeight) ∧
       (∀ playerY', paddleDx w x y radius dx playerY' computerY =
         paddleDx w x y radius dx playerY computerY) ∧
       ((y = computerY ∨ y = computerY + paddleHeight) →
         paddleDx w x y radius dx playerY computerY = dx))) ∧
    |paddleDx w x y radius dx playerY computerY| = |dx| := by
  unfold paddleDx
  refine ⟨?_, ?_, ?_⟩
  · intro hdx
    simp only [if_pos hdx]
    refine ⟨?_, by simp, ?_⟩
    · split_ifs with hc
      · simp [hc]
      · simp only [hc, iff_false]
        intro hEq
        have : dx = 0 := by linarith
        exact absurd this (ne_of_lt hdx)
    · rintro (rfl | rfl) <;>
      · rw [if_neg]
        rintro ⟨-, h1, h2⟩
        linarith
  · intro hdx
    have hnot : ¬ dx < 0 := not_lt.mpr (le_of_lt hdx)
    simp only [if_neg hnot]
    refine ⟨?_, by simp, ?_⟩
    · split_ifs with hc
      · simp [hc]
      · simp only [hc, iff_false]
        intro hEq
        have : dx = 0 := by linarith
        exact absurd this (ne_of_gt hdx)
    · rintro (rfl | rfl) <;>
      · rw [if_neg]
        rintro ⟨-, h1, h2⟩
        linarith
  · split_ifs <;> simp [abs_neg]

/-- Witness for C1: a concrete leftward ball inside the left paddle's band
registers a hit and its `dx` is negated. -/
theorem C1_paddle_collision_witness :
    ((-5 : ℚ) < 0) ∧ paddleDx 800 5 300 10 (-5) 250 0 = -(-5) :=
  ⟨by norm_num,
   ((C1_paddle_collision 800 5 300 10 (-5) 250 0).1 (by norm_num)).1.mpr
     (by norm_num [paddleWidth, paddleHeight])⟩

/-- C2: after position integration, the wall-reflection step flips the sign
of `dy` exactly when the post-integration center is past a horizontal wall
(`y + radius > h` or `y - radius < 0`), leaves the magnitude of `dy`
unchanged, and does not alter the position delta already applied this frame:
in a non-scoring frame the resulting position is exactly
`y + dy` with the pre-flip `dy`, and the flipped `dy` only takes effect in
subsequent frames. -/
theorem C2_wall_reflection (w h r1 r2 : ℚ) (gs : GameState) (hdy : gs.ball.dy ≠ 0)
    (hs1 : ¬ gs.ball.x + gs.ball.dx + gs.ball.radius > w)
    (hs2 : ¬ gs.ball.x + gs.ball.dx - gs.ball.radius < 0) :
    (wallDy h (gs.ball.y + gs.ball.dy) gs.ball.radius gs.ball.dy = -gs.ball.dy ↔
      gs.ball.y + gs.ball.dy + gs.ball.radius > h ∨
      gs.ball.y + gs.ball.dy - gs.ball.radius < 0) ∧
    |wallDy h (gs.ball.y + gs.ball.dy) gs.ball.radius gs.ball.dy| = |gs.ball.dy| ∧
    (moveBall w h gs r1 r2).ball.y = gs.ball.y + gs.ball.dy ∧
    (moveBall w h gs r1 r2).ball.dy =
      wallDy h (gs.ball.y + gs.ball.dy) gs.ball.radius gs.ball.dy := by
  refine ⟨?_, ?_, ?_, ?_⟩
  · unfold wallDy
    split_ifs with hc
    · exact iff_of_true rfl hc
    · exact iff_of_false (fun hEq => hdy (by linarith)) hc
  · unfold wallDy
    split_ifs <;> simp [abs_neg]
  · unfold moveBall
    simp only [if_neg hs1, if_neg hs2]
  · unfold moveBall
    simp only [if_neg hs1, if_neg hs2]

/-- Witness for C2: a concrete frame crossing the bottom wall
(`y = 588, dy = 5`, so `593 + 10 > 600`) ends with `dy = -5`. -/
theorem C2_wall_reflection_witness :
    (moveBall 800 600 ⟨⟨400, 588, 10, 5, 5, 5⟩, ⟨250, 0⟩, ⟨250, 0⟩⟩ 0 0).ball.dy = -5 := by
  have h := C2_wall_reflection 800 600 0 0 ⟨⟨400, 588, 10, 5, 5, 5⟩, ⟨250, 0⟩, ⟨250, 0⟩⟩
    (by norm_num) (by norm_num) (by norm_num)
  rw [h.2.2.2, h.1.mpr (by norm_num)]

/-- C3: scoring is mutually exclusive per frame (for a court at least one
ball diameter wide): the two scoring conditions cannot hold together; the
human player scores exactly when `x + radius > w` (score incremented by
exactly 1, opponent's unchanged), the rule-controlled opponent exactly when
`x - radius < 0`; either event recenters the ball and redraws its velocity
as `dx = speed * (random sign)` and `dy = speed * (random * 2 - 1)`;
otherwise both scores are unchanged. -/
theorem C3_scoring (w h r1 r2 : ℚ) (gs : GameState) (hw : 2 * gs.ball.radius ≤ w) :
    ¬ (gs.ball.x + gs.ball.dx + gs.ball.radius > w ∧
       gs.ball.x + gs.ball.dx - gs.ball.radius < 0) ∧
    (gs.ball.x + gs.ball.dx + gs.ball.radius > w →
      (moveBall w h gs r1 r2).player.score = gs.player.score + 1 ∧
      (moveBall w h gs r1 r2).computer.score = gs.computer.score ∧
      (moveBall w h gs r1 r2).ball.x = w / 2 ∧
      (moveBall w h gs r1 r2).ball.y = h / 2 ∧
      (moveBall w h gs r1 r2).ball.dx = gs.ball.speed * (if r1 > 1/2 then 1 else -1) ∧
      (moveBall w h gs r1 r2).ball.dy = gs.ball.speed * (r2 * 2 - 1)) ∧
    (gs.ball.x + gs.ball.dx - gs.ball.radius < 0 →
      (moveBall w h gs r1 r2).computer.score = gs.computer.score + 1 ∧
      (moveBall w h gs r1 r2).player.score = gs.player.score ∧
      (moveBall w h gs r1 r2).ball.x = w / 2 ∧
      (moveBall w h gs r1 r2).ball.y = h / 2 ∧
      (moveBall w h gs r1 r2).ball.dx = gs.ball.speed * (if r1 > 1/2 then 1 else -1) ∧
      (moveBall w h gs r1 r2).ball.dy = gs.ball.speed * (r2 * 2 - 1)) ∧
    (¬ gs.ball.x + gs.ball.dx + gs.ball.radius > w →
     ¬ gs.ball.x + gs.ball.dx - gs.ball.radius < 0 →
      (moveBall w h gs r1 r2).player.score = gs.player.score ∧
      (moveBall w h gs r1 r2).computer.score = gs.computer.score) := by
  refine ⟨?_, ?_, ?_, ?_⟩
  · rintro ⟨ha, hb⟩
    linarith
  · intro ha
    unfold moveBall resetBall
    rw [if_pos ha]
    exact ⟨rfl, rfl, rfl, rfl, rfl, rfl⟩
  · intro hb
    have hna : ¬ gs.ball.x + gs.ball.dx + gs.ball.radius > w := by intro ha; linarith
    unfold moveBall resetBall
    rw [if_neg hna, if_pos hb]
    exact ⟨rfl, rfl, rfl, rfl, rfl, rfl⟩
  · intro hna hnb
    unfold moveBall
    rw [if_neg hna, if_neg hnb]
    exact ⟨rfl, rfl⟩

/-- Witness for C3: the spec's end-to-end scenario — ball at `x = 795` with
`dx = 5` on an 800-wide court crosses the right edge, the human score goes
from 0 to 1, and the ball is recentered at `x = 400`. -/
theorem C3_scoring_witness :
    (moveBall 800 600 ⟨⟨795, 300, 10, 5, 5, 5⟩, ⟨250, 0⟩, ⟨250, 0⟩⟩ (3/4) (1/2)).player.score = 1 ∧
    (moveBall 800 600 ⟨⟨795, 300, 10, 5, 5, 5⟩, ⟨250, 0⟩, ⟨250, 0⟩⟩ (3/4) (1/2)).ball.x = 400 := by
  have h := (C3_scoring 800 600 (3/4) (1/2) ⟨⟨795, 300, 10, 5, 5, 5⟩, ⟨250, 0⟩, ⟨250, 0⟩⟩
    (by norm_num)).2.1 (by norm_num)
  refine ⟨by rw [h.1], by rw [h.2.2.1]; norm_num⟩

/-- C4 counterexample: the claimed invariant `0 <= y <= courtHeight -
paddleHeight` is not preserved.  A human paddle at `y = 3` (in bounds on a
600-high court) with the up key held moves to `y = -4`, below the top
bound: the guard `player.y > 0` does not check that the 7-pixel step would
stay in bounds. -/
theorem C4_counterexample :
    (0 ≤ (3 : ℚ) ∧ (3 : ℚ) ≤ 600 - paddleHeight) ∧
    (movePaddles 600 ⟨⟨400, 300, 10, 5, 5, 5⟩, ⟨3, 0⟩, ⟨250, 0⟩⟩ true false).player.y = -4 ∧
    ¬ (0 : ℚ) ≤
      (movePaddles 600 ⟨⟨400, 300, 10, 5, 5, 5⟩, ⟨3, 0⟩, ⟨250, 0⟩⟩ true false).player.y := by
  norm_num [movePaddles, paddleHeight]

/-- C4 amended: the human paddle's movement guard only requires the current
position to be strictly inside the relevant bound, so the paddle can
overshoot by up to one 7-pixel step: the invariant that is actually
preserved is `-7 < y < courtHeight - paddleHeight + 7`.  The rule-controlled
paddle has no bounds guard at all: its `y` changes by exactly `+5`, `0` or
`-5` each frame regardless of bounds. -/
theorem C4_paddle_bounds_amended (hh : ℚ) (gs : GameState) (up down : Bool)
    (h1 : -7 < gs.player.y) (h2 : gs.player.y < hh - paddleHeight + 7) :
    (-7 < (movePaddles hh gs up down).player.y ∧
     (movePaddles hh gs up down).player.y < hh - paddleHeight + 7) ∧
    ((movePaddles hh gs up down).computer.y = gs.computer.y + 5 ∨
     (movePaddles hh gs up down).computer.y = gs.computer.y ∨
     (movePaddles hh gs up down).computer.y = gs.computer.y - 5) := by
  unfold movePaddles paddleHeight at *
  constructor
  · dsimp only
    split_ifs with hu hd hd
    · exact ⟨by linarith, by linarith [hd.2]⟩
    · exact ⟨by linarith [hu.2], by linarith⟩
    · exact ⟨by linarith, by linarith [hd.2]⟩
    · exact ⟨h1, h2⟩
  · dsimp only
    split_ifs with ha hb
    · exact Or.inl rfl
    · exact Or.inr (Or.inr rfl)
    · exact Or.inr (Or.inl rfl)

/-- Witness for the amended C4: a paddle at `y = 250` on a 600-high court
stays inside the widened band, and the rule-controlled paddle's step is one
of `+5`, `0`, `-5`. -/
theorem C4_paddle_bounds_amended_witness :
    (-7 < (movePaddles 600 ⟨⟨400, 300, 10, 5, 5, 5⟩, ⟨250, 0⟩, ⟨250, 0⟩⟩ true false).player.y ∧
     (movePaddles 600 ⟨⟨400, 300, 10, 5, 5, 5⟩, ⟨250, 0⟩, ⟨250, 0⟩⟩ true false).player.y <
       600 - paddleHeight + 7) ∧
    ((movePaddles 600 ⟨⟨400, 300, 10, 5, 5, 5⟩, ⟨250, 0⟩, ⟨250, 0⟩⟩ true false).computer.y =
       (250 : ℚ) + 5 ∨
     (movePaddles 600 ⟨⟨400, 300, 10, 5, 5, 5⟩, ⟨250, 0⟩, ⟨250, 0⟩⟩ true false).computer.y =
       (250 : ℚ) ∨
     (movePaddles 600 ⟨⟨400, 300, 10, 5, 5, 5⟩, ⟨250, 0⟩, ⟨250, 0⟩⟩ true false).computer.y =
       (250 : ℚ) - 5) :=
  C4_paddle_bounds_amended 600 ⟨⟨400, 300, 10, 5, 5, 5⟩, ⟨250, 0⟩, ⟨250, 0⟩⟩ true false
    (by norm_num) (by norm_num [paddleHeight])

/-- C9 counterexample: with both intents held and the paddle at the top
bound `y = 0`, the net movement is `+7`, not zero: the up branch is skipped
(`0 > 0` fails) but the down branch still applies. -/
theorem C9_counterexample :
    (movePaddles 600 ⟨⟨400, 300, 10, 5, 5, 5⟩, ⟨0, 0⟩, ⟨250, 0⟩⟩ true true).player.y = 7 ∧
    (movePaddles 600 ⟨⟨400, 300, 10, 5, 5, 5⟩, ⟨0, 0⟩, ⟨250, 0⟩⟩ true true).player.y ≠ 0 := by
  norm_num [movePaddles, paddleHeight]

/-- C9 amended: up held alone with `y > 0` moves the paddle up by exactly 7;
down held alone with `y + paddleHeight < h` moves it down by exactly 7; and
when both intents are held the net movement is zero provided `y > 0` and the
post-up position stays above the bottom bound (`y - 7 + paddleHeight < h`) —
not for every paddle position. -/
theorem C9_human_paddle_amended (hh : ℚ) (gs : GameState) :
    (gs.player.y > 0 →
      (movePaddles hh gs true false).player.y = gs.player.y - 7) ∧
    (gs.player.y + paddleHeight < hh →
      (movePaddles hh gs false true).player.y = gs.player.y + 7) ∧
    (gs.player.y > 0 → gs.player.y - 7 + paddleHeight < hh →
      (movePaddles hh gs true true).player.y = gs.player.y) := by
  refine ⟨?_, ?_, ?_⟩
  · intro hy
    unfold movePaddles
    simp only [paddleHeight] at hy ⊢
    split_ifs <;> first | rfl | linarith | (exfalso; simp_all)
  · intro hy
    unfold movePaddles
    simp only [paddleHeight] at hy ⊢
    split_ifs <;> first | rfl | linarith | (exfalso; simp_all)
  · intro hy hd
    unfold movePaddles
    simp only [paddleHeight] at hd ⊢
    split_ifs <;> first | rfl | linarith | (exfalso; simp_all)

/-- Witness for the amended C9: at `y = 250` on a 600-high court, up alone
gives `243`, down alone gives `257`, both together give `250`. -/
theorem C9_human_paddle_amended_witness :
    (movePaddles 600 ⟨⟨400, 300, 10, 5, 5, 5⟩, ⟨250, 0⟩, ⟨250, 0⟩⟩ true false).player.y =
      (250 : ℚ) - 7 ∧
    (movePaddles 600 ⟨⟨400, 300, 10, 5, 5, 5⟩, ⟨250, 0⟩, ⟨250, 0⟩⟩ false true).player.y =
      (250 : ℚ) + 7 ∧
    (movePaddles 600 ⟨⟨400, 300, 10, 5, 5, 5⟩, ⟨250, 0⟩, ⟨250, 0⟩⟩ true true).player.y =
      (250 : ℚ) :=
  ⟨(C9_human_paddle_amended 600 ⟨⟨400, 300, 10, 5, 5, 5⟩, ⟨250, 0⟩, ⟨250, 0⟩⟩).1 (by norm_num),
   (C9_human_paddle_amended 600 ⟨⟨400, 300, 10, 5, 5, 5⟩, ⟨250, 0⟩, ⟨250, 0⟩⟩).2.1
     (by norm_num [paddleHeight]),
   (C9_human_paddle_amended 600 ⟨⟨400, 300, 10, 5, 5, 5⟩, ⟨250, 0⟩, ⟨250, 0⟩⟩).2.2
     (by norm_num) (by norm_num [paddleHeight])⟩

/-- C8 counterexample: the freshly randomized `dy` does not in general have
magnitude equal to `ball.speed`: with second draw `r2 = 1/2` the reset gives
`dy = speed * (1/2 * 2 - 1) = 0`, whose magnitude differs from the
(preserved) speed 5. -/
theorem C8_counterexample :
    (resetBall 800 600 0 (1/2) ⟨400, 300, 10, 5, 5, 5⟩).dy = 0 ∧
    (resetBall 800 600 0 (1/2) ⟨400, 300, 10, 5, 5, 5⟩).speed = 5 ∧
    |(resetBall 800 600 0 (1/2) ⟨400, 300, 10, 5, 5, 5⟩).dy| ≠
      (resetBall 800 600 0 (1/2) ⟨400, 300, 10, 5, 5, 5⟩).speed := by
  norm_num [resetBall]

/-- C8 amended: on every scoring reset the ball is recentered, `|dx|` equals
`ball.speed` exactly, but `dy = speed * (r2 * 2 - 1)`, so `|dy|` is only
bounded by the speed (`|dy| <= speed` for draws in the unit interval), not
equal to it. -/
theorem C8_reset_amended (w hh r1 r2 : ℚ) (b : Ball) (hs : 0 ≤ b.speed)
    (hr0 : 0 ≤ r2) (hr1 : r2 < 1) :
    (resetBall w hh r1 r2 b).x = w / 2 ∧
    (resetBall w hh r1 r2 b).y = hh / 2 ∧
    |(resetBall w hh r1 r2 b).dx| = b.speed ∧
    (resetBall w hh r1 r2 b).dy = b.speed * (r2 * 2 - 1) ∧
    |(resetBall w hh r1 r2 b).dy| ≤ b.speed := by
  refine ⟨rfl, rfl, ?_, rfl, ?_⟩
  · unfold resetBall
    dsimp only
    split_ifs <;> simp [abs_mul, abs_of_nonneg hs]
  · unfold resetBall
    dsimp only
    rw [abs_mul]
    have h1 : |r2 * 2 - 1| ≤ 1 := by
      rw [abs_le]
      constructor <;> linarith
    calc |b.speed| * |r2 * 2 - 1| ≤ |b.speed| * 1 :=
          mul_le_mul_of_nonneg_left h1 (abs_nonneg _)
      _ = b.speed := by rw [mul_one, abs_of_nonneg hs]

/-- Witness for the amended C8: a concrete reset with `r2 = 1/4` recenters
the ball, gives `|dx| = 5 = speed`, `dy = 5 * (1/4 * 2 - 1)` and
`|dy| <= 5`. -/
theorem C8_reset_amended_witness :
    (resetBall 800 600 0 (1/4) ⟨400, 300, 10, 5, 5, 5⟩).x = 800 / 2 ∧
    (resetBall 800 600 0 (1/4) ⟨400, 300, 10, 5, 5, 5⟩).y = 600 / 2 ∧
    |(resetBall 800 600 0 (1/4) ⟨400, 300, 10, 5, 5, 5⟩).dx| = 5 ∧
    (resetBall 800 600 0 (1/4) ⟨400, 300, 10, 5, 5, 5⟩).dy = 5 * (1/4 * 2 - 1) ∧
    |(resetBall 800 600 0 (1/4) ⟨400, 300, 10, 5, 5, 5⟩).dy| ≤ 5 :=
  C8_reset_amended 800 600 0 (1/4) ⟨400, 300, 10, 5, 5, 5⟩
    (by norm_num) (by norm_num) (by norm_num)

/-- C10: a paddle hit does not preclude scoring in the same frame: there is
a state in which the paddle-collision test inverts `dx` (the ball is inside
the left paddle's band with `x - radius < paddleWidth`) and the same
invocation of `moveBall` also satisfies the opponent's scoring condition
`x - radius < 0`, increments the opponent's score, and resets the ball to
court center. -/
theorem C10_hit_and_score_same_frame :
    ∃ (gs : GameState) (r1 r2 : ℚ),
      gs.ball.dx ≠ 0 ∧
      paddleDx 800 (gs.ball.x + gs.ball.dx) (gs.ball.y + gs.ball.dy) gs.ball.radius
        gs.ball.dx gs.player.y gs.computer.y = -gs.ball.dx ∧
      gs.ball.x + gs.ball.dx - gs.ball.radius < 0 ∧
      (moveBall 800 600 gs r1 r2).computer.score = gs.computer.score + 1 ∧
      (moveBall 800 600 gs r1 r2).ball.x = 400 ∧
      (moveBall 800 600 gs r1 r2).ball.y = 300 := by
  refine ⟨⟨⟨5, 300, 10, 5, -10, 0⟩, ⟨250, 0⟩, ⟨250, 0⟩⟩, 0, 0, ?_⟩
  norm_num [moveBall, resetBall, wallDy, paddleDx, paddleHeight, paddleWidth]

/-- C5 counterexample: not every BPM outside the expected 40-200 range is
replaced by the neutral default.  The validation only substitutes falsy or
below-40 values, so `bpm = 250` (outside the range) passes through and
yields a larger speed than `bpm = 120`. -/
theorem C5_counterexample :
    (updateBallSpeed 250 ⟨400, 300, 10, 5, 5, 5⟩).2.speed ≠
    (updateBallSpeed 120 ⟨400, 300, 10, 5, 5, 5⟩).2.speed := by
  have h120 : validBPM 120 = 120 := by norm_num [validBPM]
  have h250 : validBPM 250 = 250 := by norm_num [validBPM]
  have hm120 : speedMultiplier 120 = 1 := by norm_num [speedMultiplier]
  have ht : (1 : ℝ) < (250 / 120 : ℝ) ^ (0.7 : ℝ) := by
    rw [show (250 / 120 : ℝ) = 25 / 12 by norm_num,
      Real.one_lt_rpow_iff_of_pos (by norm_num)]
    left
    constructor <;> norm_num
  have hm250 : 1 < speedMultiplier 250 :=
    lt_max_of_lt_right (lt_min (by norm_num) ht)
  simp only [updateBallSpeed, h120, h250, hm120, baseBallSpeed]
  intro hEq
  linarith [hm250, hEq]

/-- C5 amended: every BPM input that is zero (absent) or below the 40
threshold — including negatives and 39 — is substituted by the neutral
default 120 before the formula, and so produces exactly the same update as
`bpm = 120`; inputs above 200, however, are not substituted. -/
theorem C5_invalid_tempo_amended (bpm : ℝ) (b : BallR) (hbad : bpm = 0 ∨ bpm < 40) :
    updateBallSpeed bpm b = updateBallSpeed 120 b := by
  have h1 : validBPM bpm = validBPM 120 := by
    unfold validBPM
    rw [if_pos hbad, if_neg (by norm_num)]
  unfold updateBallSpeed
  rw [h1]

/-- Witness for the amended C5: the invalid input `bpm = 39` produces
exactly the `bpm = 120` update. -/
theorem C5_invalid_tempo_amended_witness :
    ((39 : ℝ) = 0 ∨ (39 : ℝ) < 40) ∧
    updateBallSpeed 39 ⟨400, 300, 10, 5, 5, 5⟩ = updateBallSpeed 120 ⟨400, 300, 10, 5, 5, 5⟩ :=
  ⟨Or.inr (by norm_num),
   C5_invalid_tempo_amended 39 ⟨400, 300, 10, 5, 5, 5⟩ (Or.inr (by norm_num))⟩

/-- C6: the tempo-to-speed map is the identity multiplier at the 120-BPM
midpoint (`map(120, base) = base * 1`), and is monotonically non-decreasing
in the BPM over the valid range 40-200 (for a non-negative base speed). -/
theorem C6_tempo_map_monotone (b1 b2 base : ℝ) (hbase : 0 ≤ base)
    (h40 : 40 ≤ b1) (h12 : b1 ≤ b2) (h200 : b2 ≤ 200) :
    mapBPM 120 base = base * 1 ∧ mapBPM b1 base ≤ mapBPM b2 base := by
  constructor
  · unfold mapBPM
    have hv : validBPM 120 = 120 := by norm_num [validBPM]
    rw [hv]
    norm_num [speedMultiplier]
  · unfold mapBPM
    have e1 : validBPM b1 = b1 := by
      unfold validBPM
      rw [if_neg]
      rintro (rfl | hlt) <;> linarith
    have e2 : validBPM b2 = b2 := by
      unfold validBPM
      rw [if_neg]
      rintro (rfl | hlt) <;> linarith
    rw [e1, e2]
    apply mul_le_mul_of_nonneg_left _ hbase
    unfold speedMultiplier
    apply max_le_max le_rfl
    apply min_le_min le_rfl
    exact Real.rpow_le_rpow (by linarith) (by linarith) (by norm_num)

/-- Witness for C6: at base 5, `map(120, 5) = 5 * 1` and
`map(120, 5) <= map(150, 5)`. -/
theorem C6_tempo_map_monotone_witness :
    mapBPM 120 5 = 5 * 1 ∧ mapBPM 120 5 ≤ mapBPM 150 5 :=
  C6_tempo_map_monotone 120 150 5 (by norm_num) (by norm_num) (by norm_num) (by norm_num)

/-- C7: the speed update is idempotent and direction-preserving: applying
`updateBallSpeed` to its own output with the same BPM is the identity (same
validated BPM, same speed, `dx`, `dy`); after any update
`dx = speed * sign(dx_before)` and `dy = speed * sign(dy_before)`; and the
signs of `dx` and `dy` are never flipped (the positive speed factor
preserves `Math.sign`). -/
theorem C7_speed_update_idempotent (bpm : ℝ) (b : BallR) :
    updateBallSpeed bpm ((updateBallSpeed bpm b).2) = updateBallSpeed bpm b ∧
    (updateBallSpeed bpm b).2.dx = (updateBallSpeed bpm b).2.speed * Real.sign b.dx ∧
    (updateBallSpeed bpm b).2.dy = (updateBallSpeed bpm b).2.speed * Real.sign b.dy ∧
    Real.sign (updateBallSpeed bpm b).2.dx = Real.sign b.dx ∧
    Real.sign (updateBallSpeed bpm b).2.dy = Real.sign b.dy := by
  have hs : 0 < baseBallSpeed * speedMultiplier (validBPM bpm) := by
    have hm : (0.5 : ℝ) ≤ speedMultiplier (validBPM bpm) := le_max_left _ _
    unfold baseBallSpeed
    nlinarith
  have hsgn : ∀ x : ℝ,
      Real.sign ((baseBallSpeed * speedMultiplier (validBPM bpm)) * Real.sign x) =
      Real.sign x := by
    intro x
    rcases lt_trichotomy x 0 with hx | hx | hx
    · rw [Real.sign_of_neg hx, Real.sign_of_neg (by nlinarith)]
    · simp [hx]
    · rw [Real.sign_of_pos hx, Real.sign_of_pos (by nlinarith)]
  refine ⟨?_, rfl, rfl, ?_, ?_⟩
  · unfold updateBallSpeed
    dsimp only
    rw [hsgn b.dx, hsgn b.dy]
  · show Real.sign ((baseBallSpeed * speedMultiplier (validBPM bpm)) * Real.sign b.dx) =
      Real.sign b.dx
    exact hsgn b.dx
  · exact hsgn b.dy

end Pong
